import Mathlib

/-!
Shallow embedding of the goll repository's generation client and pipeline
runner (src/internal/ollama/generate.go and the first version of
src/cmd/goll/main.go), together with the evolved client version found in
src/unnamed/part_000 (second half, the one carrying format.json support).
-/

namespace Goll

/-- Model of Go's filepath.Join for the clean, already-normalized paths the
tool composes: Join("", b) = b, Join(a, "") = a, otherwise a ++ "/" ++ b. -/
def joinPath (a b : String) : String :=
  if a = "" then b else if b = "" then a else a ++ "/" ++ b

/-- Wrap an integer into the int64 range, modelling Go's two's-complement
64-bit arithmetic (time.Duration is an int64 nanosecond count). -/
def wrap64 (x : Int) : Int :=
  (x + 2 ^ 63) % 2 ^ 64 - 2 ^ 63

/-- int64 multiplication with Go's wraparound semantics. -/
def i64mul (a b : Int) : Int := wrap64 (a * b)

/-- Sampling options for the model (generate.go, struct modelOptions).
Float64 fields are modelled as exact rationals; every value the claims touch
(1.1, 0.8 and folder-supplied overrides) is handled symbolically. -/
structure ModelOptions where
  numCtx : Int
  repeatLastN : Int
  repeatPenalty : ℚ
  temperature : ℚ
deriving DecidableEq, Repr

/-- newModelOptions from generate.go: the documented defaults. -/
def newModelOptions : ModelOptions :=
  { numCtx := 2048, repeatLastN := 64, repeatPenalty := 11 / 10, temperature := 4 / 5 }

/-- The zero value of modelOptions (what Go gives a field never assigned). -/
def zeroModelOptions : ModelOptions :=
  { numCtx := 0, repeatLastN := 0, repeatPenalty := 0, temperature := 0 }

/-- The "options" object of a folder's config.json as a partial record: a
field is some v when the key is present in the JSON text and none when it is
absent, mirroring what encoding/json.Unmarshal can see. -/
structure OptionsJson where
  numCtx : Option Int
  repeatLastN : Option Int
  repeatPenalty : Option ℚ
  temperature : Option ℚ
deriving DecidableEq, Repr

/-- Per-field merge that json.Unmarshal performs when decoding into an
already-populated modelOptions value: present keys overwrite, absent keys
leave the prior (default) value in place. -/
def mergeOptions (init : ModelOptions) (j : OptionsJson) : ModelOptions :=
  { numCtx := j.numCtx.getD init.numCtx
    repeatLastN := j.repeatLastN.getD init.repeatLastN
    repeatPenalty := j.repeatPenalty.getD init.repeatPenalty
    temperature := j.temperature.getD init.temperature }

/-- A parseable config.json document (ModelConfig shape, generate.go). -/
structure ConfigJson where
  model : Option String
  options : Option OptionsJson
  format : Option String
deriving DecidableEq, Repr

/-- ModelConfig from generate.go. -/
structure ModelConfig where
  model : String
  options : ModelOptions
  outputFormat : String
deriving DecidableEq, Repr

/-- The zero ModelConfig (Go's ModelConfig{}). -/
def zeroModelConfig : ModelConfig :=
  { model := "", options := zeroModelOptions, outputFormat := "" }

/-- json.Unmarshal of a parsed config.json document into an existing
ModelConfig value: present keys overwrite (sub-object keys field by field),
absent keys keep the prior value. -/
def unmarshalModelConfig (init : ModelConfig) (j : ConfigJson) : ModelConfig :=
  { model := j.model.getD init.model
    options :=
      match j.options with
      | none => init.options
      | some oj => mergeOptions init.options oj
    outputFormat := j.format.getD init.outputFormat }

/-- Response from generate.go. CreatedAt is an abstract timestamp. -/
structure Response where
  model : String
  createdAt : Int
  output : String
  done : Bool
  totalDuration : Int
  loadDuration : Int
  promptEvalCount : Int
  promptEvalDuration : Int
  evalCount : Int
  evalDuration : Int
deriving DecidableEq, Repr

/-- Wire request from generate.go (struct request). -/
structure Request where
  model : String
  options : ModelOptions
  prompt : String
  stream : Bool
  system : String
  format : String
  raw : Bool
deriving DecidableEq, Repr

/-- The artifacts a step folder can hold. config.json is modelled at the
parse level: none means the file is missing (os.ReadFile fails), some none
means present but malformed JSON, some (some j) means it parses as j.
logs counts the timestamp-named output_*.log result artifacts written so far
(their names embed wall-clock timestamps, which we abstract away). -/
structure Folder where
  configJson : Option (Option ConfigJson)
  systemTxt : Option String
  promptTxt : Option String
  logs : Nat
deriving Repr

/-- A folder with no artifacts at all. -/
def emptyFolder : Folder :=
  { configJson := none, systemTxt := none, promptTxt := none, logs := 0 }

/-- The filesystem: a map from directory path to that folder's artifacts. -/
def Fs : Type := String → Folder

/-- os.WriteFile of prompt.txt: creates or truncates, never fails here. -/
def fsWritePrompt (fs : Fs) (dir : String) (content : String) : Fs :=
  fun d => if d = dir then { fs dir with promptTxt := some content } else fs d

/-- Writing one timestamp-named output log into dir. -/
def fsAddLog (fs : Fs) (dir : String) : Fs :=
  fun d => if d = dir then { fs dir with logs := (fs dir).logs + 1 } else fs d

/-- The error kinds the client and runner surface; each carries the
identifying directory or status code the Go error string embeds. -/
inductive GollError where
  | apiBaseRequired
  | readConfig (dir : String)
  | unmarshalConfig (dir : String)
  | readSystem (dir : String)
  | readPrompt (dir : String)
  | sendFailed
  | statusNotOK (code : Int)
  | decodeFailed
deriving DecidableEq, Repr

/-- Observable side effects of a run, for stating which folders a run
touches: artifact reads, artifact writes, and outgoing generate requests. -/
inductive Event where
  | readArtifact (dir file : String)
  | writeArtifact (dir file : String)
  | request (dir : String) (req : Request)
deriving DecidableEq, Repr

/-- The directory an event touches. -/
def Event.dir : Event → String
  | .readArtifact d _ => d
  | .writeArtifact d _ => d
  | .request d _ => d

/-- What the HTTP layer hands back for one POST: a transport failure, or a
status code with a body that either decodes into a Response or not. -/
inductive NetBody where
  | malformed
  | decodes (r : Response)
deriving DecidableEq, Repr

inductive NetResult where
  | transportError
  | httpResponse (code : Int) (body : NetBody)
deriving DecidableEq, Repr

/-- The network oracle: what the upstream endpoint answers for a given URL
and request payload. -/
def Net : Type := String → Request → NetResult

/-- Generate from src/internal/ollama/generate.go. The http.Client field
carries no observable state and is dropped; timeout is the int64 nanosecond
count a time.Duration holds. -/
structure Generate where
  folder : String
  prompt : String
  modelConfig : ModelConfig
  apiBase : String
  folderBase : String
  timeout : Int
deriving DecidableEq, Repr

/-- The exported functional options of the package (WithClient carries no
modelled state). -/
inductive Opt where
  | withPrompt (p : String)
  | withClient
  | withAPIBase (s : String)
  | withFolderBase (s : String)
  | withTimeout (t : Int)
deriving DecidableEq, Repr

/-- Application of one option. WithTimeout stores
time.Duration(timeout) * time.Second, i.e. timeout * 10^9 nanoseconds under
int64 wraparound. -/
def applyOpt : Opt → Generate → Generate
  | .withPrompt p, g => { g with prompt := p }
  | .withClient, g => g
  | .withAPIBase s, g => { g with apiBase := s }
  | .withFolderBase s, g => { g with folderBase := s }
  | .withTimeout t, g => { g with timeout := i64mul t 1000000000 }

/-- The struct literal NewGenerate starts from (timeout 300 * time.Second). -/
def defaultGenerate (folder : String) : Generate :=
  { folder := folder, prompt := "", modelConfig := zeroModelConfig
    apiBase := "", folderBase := "", timeout := 300000000000 }

/-- config (generate.go): read path/config.json, seed a ModelConfig whose
Options are the defaults, and unmarshal the file into it. -/
def configRead (fs : Fs) (path : String) : Except GollError ModelConfig :=
  match (fs path).configJson with
  | none => .error (.readConfig path)
  | some none => .error (.unmarshalConfig path)
  | some (some j) =>
      .ok (unmarshalModelConfig { model := "", options := newModelOptions, outputFormat := "" } j)

/-- NewGenerate (generate.go): build the struct, apply the options, require a
non-empty API base, then attempt to load config.json — note the source keeps
the zero modelConfig and returns a nil error when that load fails
(`if err == nil { g.modelConfig = config }`). The event list records the
attempted artifact read. -/
def newGenerate (fs : Fs) (folder : String) (options : List Opt) :
    (Generate × Option GollError) × List Event :=
  let g := options.foldl (fun g o => applyOpt o g) (defaultGenerate folder)
  if g.apiBase = "" then ((g, some .apiBaseRequired), [])
  else
    let dir := joinPath g.folderBase g.folder
    match configRead fs dir with
    | .ok c => (({ g with modelConfig := c }, none), [.readArtifact dir "config.json"])
    | .error _ => ((g, none), [.readArtifact dir "config.json"])

/-- requestFromFolder (generate.go): read system.txt; if the stored prompt is
empty read prompt.txt; assemble the wire request with stream and raw false. -/
def requestFromFolder (fs : Fs) (g : Generate) : Except GollError Request × List Event :=
  let dir := joinPath g.folderBase g.folder
  match (fs dir).systemTxt with
  | none => (.error (.readSystem dir), [.readArtifact dir "system.txt"])
  | some sys =>
      if g.prompt = "" then
        match (fs dir).promptTxt with
        | none =>
            (.error (.readPrompt dir),
              [.readArtifact dir "system.txt", .readArtifact dir "prompt.txt"])
        | some p =>
            (.ok { model := g.modelConfig.model, options := g.modelConfig.options
                   prompt := p, stream := false, system := sys
                   format := g.modelConfig.outputFormat, raw := false },
              [.readArtifact dir "system.txt", .readArtifact dir "prompt.txt"])
      else
        (.ok { model := g.modelConfig.model, options := g.modelConfig.options
               prompt := g.prompt, stream := false, system := sys
               format := g.modelConfig.outputFormat, raw := false },
          [.readArtifact dir "system.txt"])

/-- The duration argument Post passes to context.WithTimeout:
time.Duration(g.timeout) * time.Second, an int64 nanosecond count — the
already-converted timeout is multiplied by 10^9 a second time. -/
def postTimeoutNs (g : Generate) : Int := i64mul g.timeout 1000000000

/-- Post (generate.go): build the request from the folder, POST it to
apiBase ++ "/generate", fail on a non-200 status without reading the body,
otherwise decode the body. Context/timeout plumbing does not alter the
data flow modelled here (see postTimeoutNs for the deadline computation). -/
def post (fs : Fs) (net : Net) (g : Generate) : Except GollError Response × List Event :=
  match requestFromFolder fs g with
  | (.error e, ev) => (.error e, ev)
  | (.ok req, ev) =>
      let dir := joinPath g.folderBase g.folder
      let ev := ev ++ [.request dir req]
      match net (g.apiBase ++ "/generate") req with
      | .transportError => (.error .sendFailed, ev)
      | .httpResponse code body =>
          if code = 200 then
            match body with
            | .malformed => (.error .decodeFailed, ev)
            | .decodes r => (.ok r, ev)
          else (.error (.statusNotOK code), ev)

/-- The reasoning-delimiter open marker, as a character list. -/
def openTag : List Char := ['<', 't', 'h', 'i', 'n', 'k', '>']

/-- The reasoning-delimiter close marker, as a character list. -/
def closeTag : List Char := ['<', '/', 't', 'h', 'i', 'n', 'k', '>']

/-- Whether pat is a prefix of s. -/
def headMatches (pat s : List Char) : Bool := s.take pat.length = pat

/-- Index of the first occurrence of pat in s, scanning left to right — what
the regexp engine does to locate the leftmost match start. -/
def findSub (pat : List Char) : List Char → Option Nat
  | [] => if headMatches pat [] then some 0 else none
  | c :: rest =>
      if headMatches pat (c :: rest) then some 0
      else (findSub pat rest).map (· + 1)

theorem headMatches_iff {pat s : List Char} :
    headMatches pat s = true ↔ s.take pat.length = pat := by
  simp [headMatches]

theorem headMatches_length {pat s : List Char} (h : headMatches pat s = true) :
    pat.length ≤ s.length := by
  rw [headMatches_iff] at h
  have := congrArg List.length h
  simp [List.length_take] at this
  omega

theorem findSub_bound {pat s : List Char} {i : Nat} (h : findSub pat s = some i) :
    i + pat.length ≤ s.length := by
  induction s generalizing i with
  | nil =>
      simp only [findSub] at h
      split at h
      · rename_i hm
        have := headMatches_length hm
        simp_all
      · simp_all
  | cons c rest ih =>
      simp only [findSub] at h
      split at h
      · rename_i hm
        have := headMatches_length hm
        simp at h
        omega
      · simp only [Option.map_eq_some'] at h
        obtain ⟨i0, h0, rfl⟩ := h
        have := ih h0
        simp
        omega

/-- Locate the leftmost regex match of (?s)<think>.*?</think> in s: the first
open marker, together with the offset of the nearest close marker after it
(the lazy .*? stops there). none when no full match exists. -/
def findMatch (s : List Char) : Option (Nat × Nat) :=
  match findSub openTag s with
  | none => none
  | some i =>
      match findSub closeTag (s.drop (i + openTag.length)) with
      | none => none
      | some j => some (i, j)

/-- The text remaining after the match located by findMatch. -/
def afterMatch (s : List Char) (i j : Nat) : List Char :=
  (s.drop (i + openTag.length)).drop (j + closeTag.length)

/-- Fuel-indexed body of the delimiter stripping: delete each successive
leftmost match and continue scanning the remainder. One unit of fuel is spent
per removed match, and a match consumes at least the two markers, so
length s fuel always suffices. -/
def stripGo : Nat → List Char → List Char
  | 0, s => s
  | fuel + 1, s =>
      match findMatch s with
      | none => s
      | some (i, j) => s.take i ++ stripGo fuel (afterMatch s i j)

/-- ReplaceAllString of the pattern (?s)<think>.*?</think> with "". -/
def stripThinkAux (s : List Char) : List Char := stripGo s.length s

/-- The cleaning main.go applies to an output before forwarding it. -/
def stripThink (s : String) : String := String.mk (stripThinkAux s.data)

theorem findMatch_some {s : List Char} {i j : Nat} (h : findMatch s = some (i, j)) :
    findSub openTag s = some i
      ∧ findSub closeTag (s.drop (i + openTag.length)) = some j := by
  simp only [findMatch] at h
  split at h
  · exact absurd h (by simp)
  · rename_i i0 h0
    split at h
    · exact absurd h (by simp)
    · rename_i j0 h1
      obtain ⟨rfl, rfl⟩ := Prod.mk.injEq .. ▸ Option.some.injEq .. ▸ h
      exact ⟨h0, h1⟩

theorem findMatch_length {s : List Char} {i j : Nat} (h : findMatch s = some (i, j)) :
    (afterMatch s i j).length + openTag.length + closeTag.length ≤ s.length := by
  obtain ⟨h1, h2⟩ := findMatch_some h
  have hb1 := findSub_bound h1
  have hb2 := findSub_bound h2
  simp only [List.length_drop] at hb2
  simp only [afterMatch, List.length_drop]
  omega

theorem stripGo_nil (f : Nat) : stripGo f [] = [] := by cases f <;> rfl

theorem stripGo_congr :
    ∀ (f1 f2 : Nat) (s : List Char), s.length ≤ f1 → s.length ≤ f2 →
      stripGo f1 s = stripGo f2 s := by
  intro f1
  induction f1 with
  | zero =>
      intro f2 s h1 _
      have : s = [] := by
        cases s
        · rfl
        · simp at h1
      subst this
      simp [stripGo_nil]
  | succ k ih =>
      intro f2 s h1 h2
      cases f2 with
      | zero =>
          have : s = [] := by
            cases s
            · rfl
            · simp at h2
          subst this
          simp [stripGo_nil]
      | succ m =>
          simp only [stripGo]
          cases hm : findMatch s with
          | none => rfl
          | some p =>
              obtain ⟨i, j⟩ := p
              show s.take i ++ stripGo k (afterMatch s i j)
                  = s.take i ++ stripGo m (afterMatch s i j)
              have hlen := findMatch_length hm
              have hop : openTag.length = 7 := rfl
              have hcl : closeTag.length = 8 := rfl
              rw [hop, hcl] at hlen
              rw [ih m _ (by omega) (by omega)]

theorem stripThinkAux_eq (s : List Char) :
    stripThinkAux s =
      match findMatch s with
      | none => s
      | some (i, j) => s.take i ++ stripThinkAux (afterMatch s i j) := by
  cases hm : findMatch s with
  | none =>
      have hpos : s.length = s.length := rfl
      cases s with
      | nil => rfl
      | cons c rest =>
          show stripGo (rest.length + 1) (c :: rest) = _
          simp only [stripGo, hm]
  | some p =>
      obtain ⟨i, j⟩ := p
      have hlen := findMatch_length hm
      have hop : openTag.length = 7 := rfl
      have hcl : closeTag.length = 8 := rfl
      rw [hop, hcl] at hlen
      cases s with
      | nil =>
          exact absurd hlen (by simp)
      | cons c rest =>
          show stripGo (rest.length + 1) (c :: rest) = _
          simp only [stripGo, hm]
          show List.take i (c :: rest) ++ stripGo rest.length (afterMatch (c :: rest) i j)
              = List.take i (c :: rest) ++ stripThinkAux (afterMatch (c :: rest) i j)
          rw [stripGo_congr rest.length (afterMatch (c :: rest) i j).length _
                (by simp only [List.length_cons] at hlen; omega) (le_refl _)]
          rfl

/-- Global settings loaded from settings.json (internal/tool Settings). -/
structure Settings where
  apiBase : String
  folderBase : String
  timeout : Int
deriving DecidableEq, Repr

/-- The parsed invocation (main.go struct args; the folder list is the one
run receives, i.e. after recursion-mode subfolder enumeration). -/
structure Args where
  folders : List String
  prompt : String
  recurse : Bool
deriving DecidableEq, Repr

/-- Resolution of the per-step prompt override (main.go lines 156-170): the
-p text applies to step 0 of a chained run, or to every step of a recursion
run; otherwise the empty string is passed and the folder's prompt.txt is
read. -/
def stepPrompt (a : Args) (index : Nat) : String :=
  let p := if index = 0 ∧ a.prompt ≠ "" ∧ a.recurse = false then a.prompt else ""
  if a.recurse = true ∧ a.prompt ≠ "" then a.prompt else p

/-- The folder base handed to the client for a step: cleared in recursion
mode with an override because the walked subfolder paths already carry it
(main.go lines 165-170); left at the settings value otherwise. -/
def stepBase (s : Settings) (a : Args) : String :=
  if a.recurse = true ∧ a.prompt ≠ "" then "" else s.folderBase

/-- The option list main.go passes to NewGenerate for one step. -/
def stepOpts (s : Settings) (a : Args) (index : Nat) : List Opt :=
  [.withPrompt (stepPrompt a index), .withAPIBase s.apiBase,
   .withFolderBase (stepBase s a), .withClient, .withTimeout s.timeout]

/-- One iteration of the run loop (main.go lines 155-271) for the folder at
position index, with rest the folders still to come: construct the client,
POST, and on success forward the cleaned output to the next folder's
prompt.txt (chained mode only, when a next folder exists) and write the
step's result log. Console printing, the spinner and the cancellation
context carry no modelled state. -/
def runStep (s : Settings) (a : Args) (net : Net) (index : Nat) (folder : String)
    (rest : List String) (fs : Fs) : Except GollError Response × Fs × List Event :=
  match newGenerate fs folder (stepOpts s a index) with
  | ((_, some e), ev0) => (.error e, fs, ev0)
  | ((g, none), ev0) =>
      match post fs net g with
      | (.error e, ev1) => (.error e, fs, ev0 ++ ev1)
      | (.ok r, ev1) =>
          let dir := joinPath g.folderBase g.folder
          match rest with
          | next :: _ =>
              if a.recurse then
                (.ok r, fsAddLog fs dir, ev0 ++ ev1 ++ [.writeArtifact dir "output.log"])
              else
                let nextDir := joinPath g.folderBase next
                let fs1 := fsWritePrompt fs nextDir (stripThink r.output)
                let fs2 := fsAddLog fs1 dir
                (.ok r, fs2,
                  ev0 ++ ev1
                    ++ [.writeArtifact nextDir "prompt.txt", .writeArtifact dir "output.log"])
          | [] =>
              (.ok r, fsAddLog fs dir, ev0 ++ ev1 ++ [.writeArtifact dir "output.log"])

/-- The whole run loop: process folders in order, threading the filesystem;
a failed step returns its error at once and no further folder is touched. -/
def runLoop (s : Settings) (a : Args) (net : Net) :
    Nat → List String → Fs → Except GollError Unit × Fs × List Event
  | _, [], fs => (.ok (), fs, [])
  | index, folder :: rest, fs =>
      match runStep s a net index folder rest fs with
      | (.error e, fs1, ev) => (.error e, fs1, ev)
      | (.ok _, fs1, ev) =>
          match runLoop s a net (index + 1) rest fs1 with
          | (res, fs2, ev2) => (res, fs2, ev ++ ev2)

/-- run (main.go): walk the folder list from index 0 on the initial
filesystem. -/
def run (s : Settings) (a : Args) (net : Net) (fs : Fs) :
    Except GollError Unit × Fs × List Event :=
  runLoop s a net 0 a.folders fs

/-- Go float64 values as exact extended rationals: the finite arithmetic the
claims exercise (integer inputs, division by 10^9 and by each other) is
modelled exactly, and the IEEE division-by-zero outcomes are kept as the
infinite/NaN points. -/
inductive GoFloat where
  | finite (q : ℚ)
  | posInf
  | negInf
  | nan
deriving DecidableEq, Repr

/-- IEEE float64 division on the modelled values: a finite numerator over
zero yields a signed infinity (NaN for 0/0); other combinations follow the
IEEE special-value rules. -/
def GoFloat.div : GoFloat → GoFloat → GoFloat
  | .finite a, .finite b =>
      if b = 0 then (if 0 < a then .posInf else if a < 0 then .negInf else .nan)
      else .finite (a / b)
  | .finite _, .posInf => .finite 0
  | .finite _, .negInf => .finite 0
  | .posInf, .finite b => if 0 ≤ b then .posInf else .negInf
  | .negInf, .finite b => if 0 ≤ b then .negInf else .posInf
  | _, _ => .nan

theorem GoFloat.div_ff (a b : ℚ) :
    GoFloat.div (.finite a) (.finite b) =
      if b = 0 then (if 0 < a then .posInf else if a < 0 then .negInf else .nan)
      else .finite (a / b) := rfl

/-- evalTime (main.go line 218): float64(resp.EvalDuration) / 1e9. -/
def evalTimeOf (r : Response) : GoFloat :=
  GoFloat.div (.finite (r.evalDuration : ℚ)) (.finite 1000000000)

/-- tps (main.go line 220): float64(resp.EvalCount) / evalTime, computed
unconditionally. -/
def tpsOf (r : Response) : GoFloat :=
  GoFloat.div (.finite (r.evalCount : ℚ)) (evalTimeOf r)

/-- Modelled from the spec: "tokens-per-second = output-token count ÷
(output duration in seconds); undefined (and must not be computed) when
output duration is zero" — the metric as an optional value that is absent
for a zero duration. -/
def tpsSpecified (r : Response) : Option GoFloat :=
  if r.evalDuration = 0 then none
  else some (.finite ((r.evalCount : ℚ) / ((r.evalDuration : ℚ) / 1000000000)))

namespace V2

/-!
Embedding of the evolved ollama client found in src/unnamed/part_000
(second concatenated version: the one with the OutputFormat struct and
format.json support), for the claims that cite it.
-/

/-- OutputFormat (part_000): a structured-output schema. The any-typed
property schemas are modelled as opaque strings. -/
structure OutputFormat where
  type : String
  properties : List (String × String)
  required : List String
deriving DecidableEq, Repr

/-- Go's zero OutputFormat value. -/
def zeroOutputFormat : OutputFormat := { type := "", properties := [], required := [] }

/-- A parseable config.json for the V2 client. A "system" key, if present,
is unconditionally overwritten by system.txt right after unmarshalling and
is therefore not modelled. -/
structure ConfigJson where
  model : Option String
  options : Option Goll.OptionsJson
  format : Option OutputFormat
deriving DecidableEq, Repr

/-- ModelConfig (part_000 V2): carries the system prompt and the structured
output format. -/
structure ModelConfig where
  model : String
  system : String
  options : Goll.ModelOptions
  outputFormat : OutputFormat
deriving DecidableEq, Repr

/-- Go's zero ModelConfig value (what a fresh Generate struct holds). -/
def zeroModelConfig : ModelConfig :=
  { model := "", system := "", options := Goll.zeroModelOptions
    outputFormat := zeroOutputFormat }

/-- json.Unmarshal of a parsed config.json into a seeded V2 ModelConfig. -/
def unmarshalModelConfig (init : ModelConfig) (j : ConfigJson) : ModelConfig :=
  { model := j.model.getD init.model
    system := init.system
    options :=
      match j.options with
      | none => init.options
      | some oj => Goll.mergeOptions init.options oj
    outputFormat := j.format.getD init.outputFormat }

/-- Artifacts of one step folder for the V2 client; format.json is modelled
like config.json (missing / malformed / parsed). -/
structure Folder where
  configJson : Option (Option ConfigJson)
  systemTxt : Option String
  promptTxt : Option String
  formatJson : Option (Option OutputFormat)
deriving Repr

/-- The V2 filesystem. -/
def Fs : Type := String → Folder

/-- Generate (part_000 V2): Prompt and ModelConfig are exported fields. -/
structure Generate where
  folder : String
  prompt : String
  modelConfig : ModelConfig
  apiBase : String
  folderBase : String
  timeout : Int
deriving DecidableEq, Repr

/-- The exported functional options of the V2 client. -/
inductive Opt where
  | withPrompt (p : String)
  | withClient
  | withAPIBase (s : String)
  | withFolderBase (s : String)
  | withTimeout (t : Int)
deriving DecidableEq, Repr

/-- Application of one V2 option; none of them touches ModelConfig. -/
def applyOpt : Opt → Generate → Generate
  | .withPrompt p, g => { g with prompt := p }
  | .withClient, g => g
  | .withAPIBase s, g => { g with apiBase := s }
  | .withFolderBase s, g => { g with folderBase := s }
  | .withTimeout t, g => { g with timeout := Goll.i64mul t 1000000000 }

/-- The struct literal NewGenerate (V2) starts from. -/
def defaultGenerate (folder : String) : Generate :=
  { folder := folder, prompt := "", modelConfig := zeroModelConfig
    apiBase := "", folderBase := "", timeout := 300000000000 }

/-- The seed ModelConfig the V2 loader unmarshals into: defaults for the
options, zero everywhere else. -/
def seedConfig : ModelConfig :=
  { model := "", system := "", options := Goll.newModelOptions
    outputFormat := zeroOutputFormat }

/-- config (part_000 V2): read and unmarshal config.json seeded with the
option defaults, splice in system.txt, and then — only when
g.ModelConfig.OutputFormat.Type is empty, a test against the receiver's
field, not the freshly parsed value — adopt format.json if it is present
(a missing format.json is skipped; a present but malformed one fails the
whole load). -/
def config (fs : Fs) (g : Generate) : Except Goll.GollError ModelConfig :=
  let dir := Goll.joinPath g.folderBase g.folder
  match (fs dir).configJson with
  | none => .error (.readConfig dir)
  | some none => .error (.unmarshalConfig dir)
  | some (some j) =>
      let c := unmarshalModelConfig seedConfig j
      match (fs dir).systemTxt with
      | none => .error (.readSystem dir)
      | some sys =>
          let c := { c with system := sys }
          if g.modelConfig.outputFormat.type = "" then
            match (fs dir).formatJson with
            | none => .ok c
            | some none => .error (.unmarshalConfig dir)
            | some (some f) => .ok { c with outputFormat := f }
          else .ok c

/-- NewGenerate (part_000 V2): build the struct, apply the options, require
an API base, read prompt.txt when no prompt was supplied (its absence is an
error here), then load the model config — failures now propagate. -/
def newGenerate (fs : Fs) (folder : String) (options : List Opt) :
    Generate × Option Goll.GollError :=
  let g := options.foldl (fun g o => applyOpt o g) (defaultGenerate folder)
  if g.apiBase = "" then (g, some .apiBaseRequired)
  else
    let dir := Goll.joinPath g.folderBase g.folder
    let step2 : Generate × Option Goll.GollError :=
      if g.prompt = "" then
        match (fs dir).promptTxt with
        | none => (g, some (.readPrompt dir))
        | some p => ({ g with prompt := p }, none)
      else (g, none)
    match step2 with
    | (g1, none) =>
        match config fs g1 with
        | .error e => (g1, some e)
        | .ok c => ({ g1 with modelConfig := c }, none)
    | (g1, some e) => (g1, some e)

end V2

/-! Concrete fixtures used by the claim theorems. -/

/-- A filesystem whose folder base/s1 has system.txt and prompt.txt but no
config.json at all. -/
def fs3 : Fs := fun d =>
  if d = "base/s1" then
    { configJson := none, systemTxt := some "SYS", promptTxt := some "P", logs := 0 }
  else emptyFolder

/-- The option list main.go would pass for such a step. -/
def opts3 : List Opt :=
  [.withPrompt "", .withAPIBase "http://localhost:11434/api",
   .withFolderBase "base", .withClient, .withTimeout 300]

/-- A response with 50 output tokens produced in zero output duration. -/
def respZeroDuration : Response :=
  { model := "m", createdAt := 0, output := "", done := true, totalDuration := 0
    loadDuration := 0, promptEvalCount := 0, promptEvalDuration := 0
    evalCount := 50, evalDuration := 0 }

/-- A response with 50 output tokens produced in 1_000_000_000 ns. -/
def respOneSecond : Response :=
  { model := "m", createdAt := 0, output := "", done := true, totalDuration := 0
    loadDuration := 0, promptEvalCount := 0, promptEvalDuration := 0
    evalCount := 50, evalDuration := 1000000000 }

/-- C1: the claim reads "the deadline applied to the HTTP request equals t
seconds, and for t <= 0 no explicit bound is applied". The code disagrees:
WithTimeout stores t seconds as a time.Duration (t * 10^9 ns), but Post
multiplies that Duration by time.Second once more, so the duration handed to
context.WithTimeout is t * 10^18 ns — 10^9 seconds for t = 1, and an int64
wraparound to a negative duration (an already-expired scope that kills every
request instantly) for t = 10. For t = 0 the code still applies an explicit
bound of 0 ns, i.e. an immediately-expired scope, not "no bound". -/
theorem c1_post_timeout_double_scaling :
    postTimeoutNs (applyOpt (Opt.withTimeout 1) (defaultGenerate "step")) = 10 ^ 18
    ∧ (10 ^ 18 : Int) ≠ 1 * 10 ^ 9
    ∧ postTimeoutNs (applyOpt (Opt.withTimeout 10) (defaultGenerate "step"))
        = -8446744073709551616
    ∧ postTimeoutNs (applyOpt (Opt.withTimeout 10) (defaultGenerate "step")) < 0
    ∧ postTimeoutNs (applyOpt (Opt.withTimeout 0) (defaultGenerate "step")) = 0 := by
  refine ⟨by decide, by decide, by decide, by decide, by decide⟩

/-- C2 counterexample: for eval count 50 and eval duration 0 the code still
performs the division — IEEE float semantics turn it into +Inf — whereas the
spec-mandated metric is undefined (not computed) there; the surfaced value
some +Inf differs from the specified absence. -/
theorem c2_zero_duration_counterexample :
    tpsOf respZeroDuration = GoFloat.posInf
    ∧ tpsSpecified respZeroDuration = none
    ∧ some (tpsOf respZeroDuration) ≠ tpsSpecified respZeroDuration := by
  have h1 : tpsOf respZeroDuration = GoFloat.posInf := by
    norm_num [tpsOf, evalTimeOf, respZeroDuration, GoFloat.div_ff]
  have h2 : tpsSpecified respZeroDuration = none := by
    norm_num [tpsSpecified, respZeroDuration]
  exact ⟨h1, h2, by rw [h1, h2]; simp⟩

/-- C2 amended: the tokens-per-second metric is computed unconditionally as
count / (duration / 10^9); for a non-zero duration it equals the spec's
formula (in particular 50 tokens over 1_000_000_000 ns give exactly 50), and
for a zero duration the division is still performed, yielding +Inf for a
positive count (NaN for a zero count) under IEEE division rather than being
surfaced as undefined. -/
theorem c2_tps_computed_unconditionally :
    (∀ r : Response,
      tpsOf r =
        if r.evalDuration = 0 then
          (if 0 < r.evalCount then GoFloat.posInf
           else if r.evalCount < 0 then GoFloat.negInf else GoFloat.nan)
        else GoFloat.finite ((r.evalCount : ℚ) / ((r.evalDuration : ℚ) / 1000000000)))
    ∧ tpsOf respOneSecond = GoFloat.finite 50 := by
  constructor
  · intro r
    by_cases hd : r.evalDuration = 0
    · have hz : ((r.evalDuration : ℚ) / 1000000000) = 0 := by
        rw [hd]
        norm_num
      simp only [tpsOf, evalTimeOf, GoFloat.div_ff, if_neg (by norm_num : (1000000000 : ℚ) ≠ 0),
        hz, if_pos rfl, if_pos hd]
      by_cases hc : 0 < r.evalCount
      · simp [hc, Int.cast_pos.mpr hc]
      · by_cases hc2 : r.evalCount < 0
        · have hcq : (r.evalCount : ℚ) < 0 := by exact_mod_cast hc2
          simp [hc, hc2, hcq, not_lt.mpr (le_of_lt hcq)]
        · have h0 : r.evalCount = 0 := le_antisymm (not_lt.mp hc) (not_lt.mp hc2)
          simp [hc, hc2, h0]
    · have hq : ((r.evalDuration : ℚ) / 1000000000) ≠ 0 := by
        have hdq : (r.evalDuration : ℚ) ≠ 0 := by exact_mod_cast hd
        positivity
      simp only [tpsOf, evalTimeOf, GoFloat.div_ff, if_neg (by norm_num : (1000000000 : ℚ) ≠ 0),
        if_neg hq, if_neg hd]
  · norm_num [tpsOf, evalTimeOf, respOneSecond, GoFloat.div_ff]

/-- C3: the claim reads "missing or malformed config.json fails with a
configuration-load error before any request is built; the step never
proceeds with a default/zero model configuration". The code disagrees:
NewGenerate checks `if err == nil` and silently drops the config error, so
for a folder with no config.json it returns a nil error, keeps the zero
ModelConfig, and the subsequent request is built and carries the empty model
name and all-zero options. -/
theorem c3_config_error_swallowed :
    (newGenerate fs3 "s1" opts3).1.2 = none
    ∧ (newGenerate fs3 "s1" opts3).1.1.modelConfig = zeroModelConfig
    ∧ (requestFromFolder fs3 (newGenerate fs3 "s1" opts3).1.1).1
        = .ok { model := "", options := zeroModelOptions, prompt := "P", stream := false
                system := "SYS", format := "", raw := false } := by
  refine ⟨rfl, rfl, rfl⟩

/-- C6: for every parseable config.json, option fields left unset resolve to
the documented defaults (2048 / 64 / 1.1 / 0.8) — including when the whole
options object is absent — and fields explicitly set resolve to the explicit
value: the defaults are seeded first and json.Unmarshal overwrites only the
present keys. -/
theorem c6_defaults_under_explicit :
    ∀ (fs : Fs) (dir : String) (j : ConfigJson),
      (fs dir).configJson = some (some j) →
      ∃ c, configRead fs dir = .ok c
        ∧ (j.options = none → c.options = newModelOptions)
        ∧ (∀ oj, j.options = some oj →
            (oj.numCtx = none → c.options.numCtx = 2048)
            ∧ (∀ v, oj.numCtx = some v → c.options.numCtx = v)
            ∧ (oj.repeatLastN = none → c.options.repeatLastN = 64)
            ∧ (∀ v, oj.repeatLastN = some v → c.options.repeatLastN = v)
            ∧ (oj.repeatPenalty = none → c.options.repeatPenalty = 11 / 10)
            ∧ (∀ v, oj.repeatPenalty = some v → c.options.repeatPenalty = v)
            ∧ (oj.temperature = none → c.options.temperature = 4 / 5)
            ∧ (∀ v, oj.temperature = some v → c.options.temperature = v)) := by
  intro fs dir j hj
  refine ⟨unmarshalModelConfig
      { model := "", options := newModelOptions, outputFormat := "" } j, ?_, ?_, ?_⟩
  · simp only [configRead, hj]
  · intro h
    simp [unmarshalModelConfig, h]
  · intro oj hoj
    refine ⟨?_, ?_, ?_, ?_, ?_, ?_, ?_, ?_⟩ <;>
      first
        | (intro h; simp [unmarshalModelConfig, mergeOptions, hoj, h, newModelOptions])
        | (intro v h; simp [unmarshalModelConfig, mergeOptions, hoj, h])

/-- A config.json that sets only the context window and the temperature. -/
def j6 : ConfigJson :=
  { model := some "llama3", options := some
      { numCtx := some 4096, repeatLastN := none, repeatPenalty := none
        temperature := some (1 / 2) }
    format := none }

/-- A filesystem whose folder d6 holds j6 as its config.json. -/
def fs6 : Fs := fun d =>
  if d = "d6" then
    { configJson := some (some j6), systemTxt := some "SYS", promptTxt := some "P", logs := 0 }
  else emptyFolder

/-- Witness for C6 at a concrete folder config overriding a subset. -/
theorem c6_witness :
    ∃ c, configRead fs6 "d6" = .ok c
      ∧ (j6.options = none → c.options = newModelOptions)
      ∧ (∀ oj, j6.options = some oj →
          (oj.numCtx = none → c.options.numCtx = 2048)
          ∧ (∀ v, oj.numCtx = some v → c.options.numCtx = v)
          ∧ (oj.repeatLastN = none → c.options.repeatLastN = 64)
          ∧ (∀ v, oj.repeatLastN = some v → c.options.repeatLastN = v)
          ∧ (oj.repeatPenalty = none → c.options.repeatPenalty = 11 / 10)
          ∧ (∀ v, oj.repeatPenalty = some v → c.options.repeatPenalty = v)
          ∧ (oj.temperature = none → c.options.temperature = 4 / 5)
          ∧ (∀ v, oj.temperature = some v → c.options.temperature = v)) :=
  c6_defaults_under_explicit fs6 "d6" j6 rfl

/-- C10: supplying WithPrompt("") is indistinguishable from supplying no
prompt option at all — the prompt field starts empty, so the option is a
no-op — and whenever the stored prompt is empty the built request's prompt
is exactly the folder's prompt.txt content, so an override cannot force an
empty prompt. -/
theorem c10_empty_override_ignored :
    (∀ (fs : Fs) (folder : String) (opts : List Opt),
        newGenerate fs folder (Opt.withPrompt "" :: opts) = newGenerate fs folder opts)
    ∧ (∀ (fs : Fs) (g : Generate) (req : Request),
        g.prompt = "" → (requestFromFolder fs g).1 = .ok req →
        (fs (joinPath g.folderBase g.folder)).promptTxt = some req.prompt) := by
  constructor
  · intro fs folder opts
    rfl
  · intro fs g req hp hreq
    simp only [requestFromFolder, hp] at hreq
    cases hs : (fs (joinPath g.folderBase g.folder)).systemTxt with
    | none =>
        rw [hs] at hreq
        simp at hreq
    | some sys =>
        rw [hs] at hreq
        simp only [if_pos rfl] at hreq
        cases hpt : (fs (joinPath g.folderBase g.folder)).promptTxt with
        | none =>
            rw [hpt] at hreq
            simp at hreq
        | some p =>
            rw [hpt] at hreq
            simp only [if_true, Except.ok.injEq] at hreq
            rw [← hreq]

/-- A filesystem for the C10 witness: folder w10 with both artifacts. -/
def fs10 : Fs := fun d =>
  if d = "w10" then
    { configJson := none, systemTxt := some "S10", promptTxt := some "P10", logs := 0 }
  else emptyFolder

/-- The client state main.go reaches for that folder with an empty override. -/
def g10 : Generate :=
  { folder := "w10", prompt := "", modelConfig := zeroModelConfig
    apiBase := "u", folderBase := "", timeout := 300000000000 }

/-- The request g10 builds from fs10. -/
def req10 : Request :=
  { model := "", options := zeroModelOptions, prompt := "P10", stream := false
    system := "S10", format := "", raw := false }

/-- Witness for C10: the empty override is a no-op and the request prompt is
the prompt.txt content. -/
theorem c10_witness :
    newGenerate fs10 "w10" (Opt.withPrompt "" :: [Opt.withAPIBase "u"])
        = newGenerate fs10 "w10" [Opt.withAPIBase "u"]
    ∧ (fs10 (joinPath g10.folderBase g10.folder)).promptTxt = some req10.prompt :=
  ⟨c10_empty_override_ignored.1 fs10 "w10" [Opt.withAPIBase "u"],
   c10_empty_override_ignored.2 fs10 g10 req10 rfl rfl⟩

/-- The Generate value a step's option list folds to. -/
theorem stepGen_def (s : Settings) (a : Args) (i : Nat) (folder : String) :
    (stepOpts s a i).foldl (fun g o => applyOpt o g) (defaultGenerate folder)
      = { folder := folder, prompt := stepPrompt a i, modelConfig := zeroModelConfig
          apiBase := s.apiBase, folderBase := stepBase s a
          timeout := i64mul s.timeout 1000000000 } := rfl

/-- Every event requestFromFolder emits touches the client's own folder. -/
theorem requestFromFolder_events (fs : Fs) (g : Generate) (res : Except GollError Request)
    (ev : List Event) (h : requestFromFolder fs g = (res, ev)) :
    ∀ x ∈ ev, x.dir = joinPath g.folderBase g.folder := by
  simp only [requestFromFolder] at h
  split at h
  · obtain ⟨-, rfl⟩ := Prod.mk.injEq .. ▸ h
    simp [Event.dir]
  · split at h
    · split at h
      · obtain ⟨-, rfl⟩ := Prod.mk.injEq .. ▸ h
        simp [Event.dir]
      · obtain ⟨-, rfl⟩ := Prod.mk.injEq .. ▸ h
        simp [Event.dir]
    · obtain ⟨-, rfl⟩ := Prod.mk.injEq .. ▸ h
      simp [Event.dir]

/-- Every event post emits touches the client's own folder. -/
theorem post_events (fs : Fs) (net : Net) (g : Generate) (res : Except GollError Response)
    (ev : List Event) (h : post fs net g = (res, ev)) :
    ∀ x ∈ ev, x.dir = joinPath g.folderBase g.folder := by
  simp only [post] at h
  split at h
  · rename_i e ev0 heq
    obtain ⟨-, rfl⟩ := Prod.mk.injEq .. ▸ h
    exact requestFromFolder_events fs g _ _ heq
  · rename_i req ev0 heq
    have hev0 := requestFromFolder_events fs g _ _ heq
    split at h
    · obtain ⟨-, rfl⟩ := Prod.mk.injEq .. ▸ h
      intro x hx
      rcases List.mem_append.mp hx with hx0 | hx1
      · exact hev0 x hx0
      · simp only [List.mem_singleton] at hx1
        subst hx1
        rfl
    · split at h
      · split at h
        · obtain ⟨-, rfl⟩ := Prod.mk.injEq .. ▸ h
          intro x hx
          rcases List.mem_append.mp hx with hx0 | hx1
          · exact hev0 x hx0
          · simp only [List.mem_singleton] at hx1
            subst hx1
            rfl
        · obtain ⟨-, rfl⟩ := Prod.mk.injEq .. ▸ h
          intro x hx
          rcases List.mem_append.mp hx with hx0 | hx1
          · exact hev0 x hx0
          · simp only [List.mem_singleton] at hx1
            subst hx1
            rfl
      · obtain ⟨-, rfl⟩ := Prod.mk.injEq .. ▸ h
        intro x hx
        rcases List.mem_append.mp hx with hx0 | hx1
        · exact hev0 x hx0
        · simp only [List.mem_singleton] at hx1
          subst hx1
          rfl

/-- What NewGenerate can hand a step: at most the config.json probe of the
step's own directory, and a client whose folder fields are the step's. -/
theorem newGenerate_step_inv (s : Settings) (a : Args) (i : Nat) (fs : Fs) (f : String)
    (g : Generate) (oe : Option GollError) (ev : List Event)
    (h : newGenerate fs f (stepOpts s a i) = ((g, oe), ev)) :
    (ev = [] ∨ ev = [.readArtifact (joinPath (stepBase s a) f) "config.json"])
      ∧ g.folderBase = stepBase s a ∧ g.folder = f := by
  simp only [newGenerate, stepGen_def] at h
  split at h
  · obtain ⟨h1, rfl⟩ := Prod.mk.injEq .. ▸ h
    obtain ⟨rfl, -⟩ := Prod.mk.injEq .. ▸ h1
    exact ⟨Or.inl rfl, rfl, rfl⟩
  · split at h
    · obtain ⟨h1, rfl⟩ := Prod.mk.injEq .. ▸ h
      obtain ⟨rfl, -⟩ := Prod.mk.injEq .. ▸ h1
      exact ⟨Or.inr rfl, rfl, rfl⟩
    · obtain ⟨h1, rfl⟩ := Prod.mk.injEq .. ▸ h
      obtain ⟨rfl, -⟩ := Prod.mk.injEq .. ▸ h1
      exact ⟨Or.inr rfl, rfl, rfl⟩

/-- C5: a step that fails while resolving or requesting (missing artifact,
transport failure, non-200 status, undecodable body, missing API base)
aborts the run at once: the filesystem is left exactly as it was when the
step began (so everything earlier steps wrote remains on disk), the loop
returns that error without processing any later folder, and every event of
the failed run tail touches only the failing step's own directory — no later
folder is read, written, or requested. -/
theorem c5_failure_aborts_run :
    ∀ (s : Settings) (a : Args) (net : Net) (i : Nat) (f : String) (rest : List String)
      (fs : Fs) (e : GollError) (fs1 : Fs) (ev : List Event),
      runStep s a net i f rest fs = (.error e, fs1, ev) →
      fs1 = fs
      ∧ runLoop s a net i (f :: rest) fs = (.error e, fs, ev)
      ∧ ∀ x ∈ ev, x.dir = joinPath (stepBase s a) f := by
  intro s a net i f rest fs e fs1 ev h
  have h0 := h
  simp only [runStep] at h
  split at h
  · rename_i x e1 ev0 heq
    simp only [Prod.mk.injEq, Except.error.injEq] at h
    obtain ⟨rfl, hfs, hev⟩ := h
    subst hfs
    subst hev
    obtain ⟨hev0, -, -⟩ := newGenerate_step_inv s a i fs f _ _ _ heq
    refine ⟨rfl, ?_, ?_⟩
    · simp only [runLoop, h0]
    · rcases hev0 with rfl | rfl
      · intro x hx
        simp at hx
      · intro x hx
        simp only [List.mem_singleton] at hx
        subst hx
        rfl
  · rename_i g ev0 heq
    obtain ⟨hev0, hgb, hgf⟩ := newGenerate_step_inv s a i fs f _ _ _ heq
    split at h
    · rename_i e1 ev1 hpost
      simp only [Prod.mk.injEq, Except.error.injEq] at h
      obtain ⟨rfl, hfs, hev⟩ := h
      subst hfs
      subst hev
      have hev1 := post_events fs net g _ _ hpost
      refine ⟨rfl, ?_, ?_⟩
      · simp only [runLoop, h0]
      · intro x hx
        rcases List.mem_append.mp hx with hx0 | hx1
        · rcases hev0 with rfl | rfl
          · simp at hx0
          · simp only [List.mem_singleton] at hx0
            subst hx0
            rfl
        · rw [hev1 x hx1, hgb, hgf]
    · rename_i r ev1 hpost
      split at h
      · split at h
        · simp only [Prod.mk.injEq] at h
          exact absurd h.1 (by simp)
        · simp only [Prod.mk.injEq] at h
          exact absurd h.1 (by simp)
      · simp only [Prod.mk.injEq] at h
        exact absurd h.1 (by simp)

/-- Settings for the chained-run fixtures. -/
def s5 : Settings := { apiBase := "u", folderBase := "base", timeout := 300 }

/-- A chained three-folder invocation with no override. -/
def a5 : Args := { folders := ["f1", "f2", "f3"], prompt := "", recurse := false }

/-- Folder f2's config.json: only the model name. -/
def j5 : ConfigJson := { model := some "m", options := none, format := none }

/-- The filesystem when step 1 (folder f2) begins: f1 already ran (its log
exists), f2 is fully populated, f3 holds artifacts that must stay untouched. -/
def fs5 : Fs := fun d =>
  if d = "base/f2" then
    { configJson := some (some j5), systemTxt := some "S2", promptTxt := some "P2", logs := 0 }
  else if d = "base/f1" then
    { configJson := none, systemTxt := some "S1", promptTxt := some "P1", logs := 1 }
  else if d = "base/f3" then
    { configJson := none, systemTxt := some "S3", promptTxt := some "P3", logs := 0 }
  else emptyFolder

/-- An upstream that answers 500 to everything. -/
def net5 : Net := fun _ _ => .httpResponse 500 .malformed

/-- The request folder f2 sends. -/
def req5 : Request :=
  { model := "m", options := newModelOptions, prompt := "P2", stream := false
    system := "S2", format := "", raw := false }

/-- The events of the failing step: all four touch base/f2 only. -/
def ev5 : List Event :=
  [.readArtifact ("base/f2") "config.json", .readArtifact ("base/f2") "system.txt",
   .readArtifact ("base/f2") "prompt.txt", .request ("base/f2") req5]

/-- Witness for C5: with folder f2's request answered 500 at step 1 of the
three-folder chain, the remaining run returns that error, leaves the
filesystem (including f1's artifacts and f3's folder) exactly as it was, and
every emitted event touches base/f2 only — f3 is never read, written, or
requested. -/
theorem c5_witness :
    fs5 = fs5
    ∧ runLoop s5 a5 net5 1 ["f2", "f3"] fs5 = (.error (.statusNotOK 500), fs5, ev5)
    ∧ ∀ x ∈ ev5, x.dir = joinPath (stepBase s5 a5) "f2" :=
  c5_failure_aborts_run s5 a5 net5 1 "f2" ["f3"] fs5 (.statusNotOK 500) fs5 ev5 rfl

/-- fsAddLog leaves every folder's prompt.txt alone. -/
theorem fsAddLog_promptTxt (fs : Fs) (dir d : String) :
    ((fsAddLog fs dir) d).promptTxt = (fs d).promptTxt := by
  simp only [fsAddLog]
  split
  · rename_i hd
    rw [hd]
  · rfl

/-- fsWritePrompt stores exactly the written content at the target folder. -/
theorem fsWritePrompt_self (fs : Fs) (dir : String) (c : String) :
    ((fsWritePrompt fs dir c) dir).promptTxt = some c := by
  simp [fsWritePrompt]

/-- fsWritePrompt leaves every folder's system.txt alone. -/
theorem fsWritePrompt_systemTxt (fs : Fs) (dir d : String) (c : String) :
    ((fsWritePrompt fs dir c) d).systemTxt = (fs d).systemTxt := by
  simp only [fsWritePrompt]
  split
  · rename_i hd
    rw [hd]
  · rfl

/-- With no -p text, the resolved override is empty at every index. -/
theorem stepPrompt_no_override (a : Args) (i : Nat) (hp : a.prompt = "") :
    stepPrompt a i = "" := by
  simp [stepPrompt, hp]

/-- The folder-identifying fields and the prompt of the Generate a step
constructs do not depend on the config load outcome. -/
theorem newGenerate_step_fields (s : Settings) (a : Args) (k : Nat) (fs : Fs) (folder : String) :
    (newGenerate fs folder (stepOpts s a k)).1.1.prompt = stepPrompt a k
    ∧ (newGenerate fs folder (stepOpts s a k)).1.1.folderBase = stepBase s a
    ∧ (newGenerate fs folder (stepOpts s a k)).1.1.folder = folder := by
  simp only [newGenerate, stepGen_def]
  split
  · exact ⟨rfl, rfl, rfl⟩
  · split
    · exact ⟨rfl, rfl, rfl⟩
    · exact ⟨rfl, rfl, rfl⟩

/-- With an empty stored prompt and both text artifacts present, the built
request carries the folder's prompt.txt content. -/
theorem requestFromFolder_reads_prompt (fs : Fs) (g : Generate) (sys p : String)
    (hg : g.prompt = "")
    (hs : (fs (joinPath g.folderBase g.folder)).systemTxt = some sys)
    (hp : (fs (joinPath g.folderBase g.folder)).promptTxt = some p) :
    requestFromFolder fs g =
      (.ok { model := g.modelConfig.model, options := g.modelConfig.options
             prompt := p, stream := false, system := sys
             format := g.modelConfig.outputFormat, raw := false },
       [.readArtifact (joinPath g.folderBase g.folder) "system.txt",
        .readArtifact (joinPath g.folderBase g.folder) "prompt.txt"]) := by
  simp only [requestFromFolder, hs, hg, hp]
  simp

/-- A successful step makes the loop continue on the updated filesystem,
prepending the step's events. -/
theorem runLoop_cons_ok (s : Settings) (a : Args) (net : Net) (i : Nat) (f : String)
    (rest : List String) (fs : Fs) (r : Response) (fs1 : Fs) (ev : List Event)
    (h : runStep s a net i f rest fs = (.ok r, fs1, ev)) :
    runLoop s a net i (f :: rest) fs
      = ((runLoop s a net (i + 1) rest fs1).1,
         (runLoop s a net (i + 1) rest fs1).2.1,
         ev ++ (runLoop s a net (i + 1) rest fs1).2.2) := by
  simp only [runLoop, h]

/-- C4: in a chained run with no prompt override, when the step at position
i over folder f succeeds with response r and a folder g follows, then (1) g's
prompt.txt afterwards holds exactly the cleaned output (reasoning-delimiter
blocks removed) — whatever it held before, without needing to have existed —
(2) the request the next step then builds carries that cleaned output as its
prompt (given g's system.txt, read first, is present), and (3) the loop
continues into step i+1 on that updated filesystem. -/
theorem c4_chained_forwarding :
    ∀ (s : Settings) (a : Args) (net : Net) (i : Nat) (f g : String) (rest : List String)
      (fs : Fs) (r : Response) (fs1 : Fs) (ev : List Event),
      a.recurse = false → a.prompt = "" →
      runStep s a net i f (g :: rest) fs = (.ok r, fs1, ev) →
      (fs1 (joinPath s.folderBase g)).promptTxt = some (stripThink r.output)
      ∧ (∀ sys, (fs1 (joinPath s.folderBase g)).systemTxt = some sys →
          ∃ req ev2,
            requestFromFolder fs1 (newGenerate fs1 g (stepOpts s a (i + 1))).1.1
                = (.ok req, ev2)
            ∧ req.prompt = stripThink r.output)
      ∧ runLoop s a net i (f :: g :: rest) fs
          = ((runLoop s a net (i + 1) (g :: rest) fs1).1,
             (runLoop s a net (i + 1) (g :: rest) fs1).2.1,
             ev ++ (runLoop s a net (i + 1) (g :: rest) fs1).2.2) := by
  intro s a net i f g rest fs r fs1 ev hrec hp h
  have h0 := h
  have hsb : stepBase s a = s.folderBase := by
    simp [stepBase, hrec]
  simp only [runStep] at h
  split at h
  · simp only [Prod.mk.injEq] at h
    exact absurd h.1 (by simp)
  · rename_i g0 ev0 hng
    obtain ⟨-, hgb, hgf⟩ := newGenerate_step_inv s a i fs f _ _ _ hng
    split at h
    · simp only [Prod.mk.injEq] at h
      exact absurd h.1 (by simp)
    · rename_i r0 ev1 hpost
      rw [hrec] at h
      simp only [Bool.false_eq_true, if_false] at h
      simp only [Prod.mk.injEq, Except.ok.injEq] at h
      obtain ⟨rfl, hfs, hev⟩ := h
      subst hfs
      subst hev
      have hnd : joinPath g0.folderBase g = joinPath s.folderBase g := by
        rw [hgb, hsb]
      have hc1 :
          ((fsAddLog (fsWritePrompt fs (joinPath g0.folderBase g) (stripThink r0.output))
              (joinPath g0.folderBase g0.folder)) (joinPath s.folderBase g)).promptTxt
            = some (stripThink r0.output) := by
        rw [fsAddLog_promptTxt, ← hnd, fsWritePrompt_self]
      refine ⟨hc1, ?_, ?_⟩
      · intro sys hsys
        obtain ⟨hq1, hq2, hq3⟩ := newGenerate_step_fields s a (i + 1)
          (fsAddLog (fsWritePrompt fs (joinPath g0.folderBase g) (stripThink r0.output))
            (joinPath g0.folderBase g0.folder)) g
        refine ⟨_, _, requestFromFolder_reads_prompt _ _ sys (stripThink r0.output)
            (by rw [hq1, stepPrompt_no_override a (i + 1) hp]) ?_ ?_, rfl⟩
        · rw [hq2, hq3, hsb]
          exact hsys
        · rw [hq2, hq3, hsb]
          exact hc1
      · exact runLoop_cons_ok s a net i f (g :: rest) fs r0 _ _ h0

/-- Settings for the two-folder chained fixture. -/
def s4 : Settings := { apiBase := "u", folderBase := "base", timeout := 300 }

/-- A chained two-folder invocation with no override. -/
def a4 : Args := { folders := ["f1", "f2"], prompt := "", recurse := false }

/-- Folder f1's config.json. -/
def j4 : ConfigJson := { model := some "m", options := none, format := none }

/-- Initial filesystem: f1 complete; f2 has system.txt but NO prompt.txt. -/
def fs4 : Fs := fun d =>
  if d = "base/f1" then
    { configJson := some (some j4), systemTxt := some "S1", promptTxt := some "P1", logs := 0 }
  else if d = "base/f2" then
    { configJson := none, systemTxt := some "S2", promptTxt := none, logs := 0 }
  else emptyFolder

/-- The model output for step 0, with a reasoning block to strip. -/
def resp4 : Response :=
  { model := "m", createdAt := 0, output := "<think>plan</think>OK", done := true
    totalDuration := 0, loadDuration := 0, promptEvalCount := 0, promptEvalDuration := 0
    evalCount := 1, evalDuration := 1 }

/-- An upstream that always answers 200 with resp4. -/
def net4 : Net := fun _ _ => .httpResponse 200 (.decodes resp4)

/-- The request step 0 sends. -/
def req4 : Request :=
  { model := "m", options := newModelOptions, prompt := "P1", stream := false
    system := "S1", format := "", raw := false }

/-- The filesystem after step 0: f2's prompt.txt written, f1's log added. -/
def fs4final : Fs :=
  fsAddLog (fsWritePrompt fs4 ("base/f2") (stripThink resp4.output)) ("base/f1")

/-- The events of step 0. -/
def ev4 : List Event :=
  [.readArtifact ("base/f1") "config.json", .readArtifact ("base/f1") "system.txt",
   .readArtifact ("base/f1") "prompt.txt", .request ("base/f1") req4,
   .writeArtifact ("base/f2") "prompt.txt", .writeArtifact ("base/f1") "output.log"]

/-- Witness for C4: after step 0 succeeds, folder f2 — which had no
prompt.txt — holds the cleaned output, and the request it then builds
carries exactly that cleaned output. -/
theorem c4_witness :
    (fs4final (joinPath s4.folderBase "f2")).promptTxt = some (stripThink resp4.output)
    ∧ (∃ req ev2,
        requestFromFolder fs4final (newGenerate fs4final "f2" (stepOpts s4 a4 (0 + 1))).1.1
            = (.ok req, ev2)
        ∧ req.prompt = stripThink resp4.output)
    ∧ runLoop s4 a4 net4 0 ["f1", "f2"] fs4
        = ((runLoop s4 a4 net4 (0 + 1) ["f2"] fs4final).1,
           (runLoop s4 a4 net4 (0 + 1) ["f2"] fs4final).2.1,
           ev4 ++ (runLoop s4 a4 net4 (0 + 1) ["f2"] fs4final).2.2) := by
  have h := c4_chained_forwarding s4 a4 net4 0 "f1" "f2" [] fs4 resp4 fs4final ev4 rfl rfl rfl
  exact ⟨h.1, h.2.1 "S2" rfl, h.2.2⟩

/-- Settings for the recursion-mode fixture: a non-empty folder base. -/
def s9 : Settings := { apiBase := "u", folderBase := "prompts", timeout := 300 }

/-- A recursion-mode invocation (-r, no -p): main.go's Walk enumeration has
already produced the subfolder path prefixed with the folder base. -/
def a9 : Args := { folders := ["prompts/parent/sub"], prompt := "", recurse := true }

/-- The subfolder's config.json. -/
def j9 : ConfigJson := { model := some "m", options := none, format := none }

/-- The filesystem: the subfolder exists, fully populated, at its real path
prompts/parent/sub; the doubled path prompts/prompts/parent/sub holds
nothing. -/
def fs9 : Fs := fun d =>
  if d = "prompts/parent/sub" then
    { configJson := some (some j9), systemTxt := some "SYS", promptTxt := some "P", logs := 0 }
  else emptyFolder

/-- Any upstream; it is never reached. -/
def net9 : Net := fun _ _ => .httpResponse 200 .malformed

/-- C9: the claim reads "in every case with no applicable override —
including every recursion-mode step without an override — the request prompt
is the contents of prompt.txt in that step's own folder, and its absence is
fatal". In chained mode that holds (requestFromFolder reads
folderBase/folder/prompt.txt, and a missing file aborts the step), but in
recursion mode without an override the code disagrees: run keeps
folderBase = settings.FolderBase while the walked folder names already carry
that prefix (the override branch clears it for exactly that reason), so the
step reads from the doubled path, never touches its own folder's prompt.txt,
and fails on system.txt even though every artifact is present. -/
theorem c9_recursion_no_override_reads_doubled_path :
    (fs9 ("prompts/parent/sub")).promptTxt = some "P"
    ∧ (fs9 ("prompts/parent/sub")).systemTxt = some "SYS"
    ∧ stepBase s9 a9 = "prompts"
    ∧ joinPath (stepBase s9 a9) ("prompts/parent/sub") = "prompts/prompts/parent/sub"
    ∧ run s9 a9 net9 fs9
        = (.error (.readSystem ("prompts/prompts/parent/sub")), fs9,
           [.readArtifact ("prompts/prompts/parent/sub") "config.json",
            .readArtifact ("prompts/prompts/parent/sub") "system.txt"]) := by
  refine ⟨rfl, rfl, rfl, rfl, rfl⟩

/-- Folding any V2 option list never touches the model config: it stays the
zero value until NewGenerate assigns the loaded config afterwards. -/
theorem v2_applyOpts_modelConfig :
    ∀ (opts : List V2.Opt) (g : V2.Generate),
      (opts.foldl (fun g o => V2.applyOpt o g) g).modelConfig = g.modelConfig := by
  intro opts
  induction opts with
  | nil => intro g; rfl
  | cons o rest ih =>
      intro g
      rw [List.foldl_cons, ih]
      cases o <;> rfl

/-- The schema config.json carries in the C7 fixture. -/
def fmtCfg : V2.OutputFormat :=
  { type := "object", properties := [("a", "string")], required := ["a"] }

/-- The different schema format.json carries in the C7 fixture. -/
def fmtFile : V2.OutputFormat := { type := "json2", properties := [], required := [] }

/-- A config.json that already specifies an output-format schema. -/
def j7 : V2.ConfigJson := { model := some "m", options := none, format := some fmtCfg }

/-- A folder holding both that config.json and a format.json. -/
def fs7 : V2.Fs := fun d =>
  if d = "base/s7" then
    { configJson := some (some j7), systemTxt := some "SYS", promptTxt := some "P"
      formatJson := some (some fmtFile) }
  else { configJson := none, systemTxt := none, promptTxt := none, formatJson := none }

/-- The same folder without a format.json. -/
def fs7b : V2.Fs := fun d =>
  if d = "base/s7" then
    { configJson := some (some j7), systemTxt := some "SYS", promptTxt := some "P"
      formatJson := none }
  else { configJson := none, systemTxt := none, promptTxt := none, formatJson := none }

/-- The options main would pass for that folder. -/
def opts7 : List V2.Opt := [.withAPIBase "u", .withFolderBase "base"]

/-- C7 counterexample: the folder's config.json specifies the schema fmtCfg,
a format.json with the different schema fmtFile is also present, and the
loaded model config carries fmtFile — format.json was consulted and adopted
even though config.json had already specified a schema, because the guard
tests the receiver's not-yet-assigned ModelConfig (always empty during the
load) instead of the freshly parsed config. -/
theorem c7_counterexample :
    (V2.newGenerate fs7 "s7" opts7).2 = none
    ∧ (V2.newGenerate fs7 "s7" opts7).1.modelConfig.outputFormat = fmtFile
    ∧ j7.format = some fmtCfg
    ∧ fmtFile ≠ fmtCfg := by
  refine ⟨rfl, rfl, rfl, by decide⟩

/-- C7 amended: the optional format.json artifact is consulted whenever the
folder is loaded, and its schema is adopted whenever the file is present and
parseable — overwriting any schema config.json specified — because the guard
compares against the Generate value's model config, which no option ever
sets and which is therefore still zero at load time; only when format.json
is absent does the config.json schema (or the zero schema) remain. -/
theorem c7_format_json_always_wins :
    (∀ (opts : List V2.Opt) (folder : String),
        (opts.foldl (fun g o => V2.applyOpt o g) (V2.defaultGenerate folder)).modelConfig
          = V2.zeroModelConfig)
    ∧ (∀ (fs : V2.Fs) (g : V2.Generate) (j : V2.ConfigJson) (sys : String),
        g.modelConfig.outputFormat.type = "" →
        (fs (joinPath g.folderBase g.folder)).configJson = some (some j) →
        (fs (joinPath g.folderBase g.folder)).systemTxt = some sys →
        (∀ f, (fs (joinPath g.folderBase g.folder)).formatJson = some (some f) →
            ∃ c, V2.config fs g = .ok c ∧ c.outputFormat = f)
        ∧ ((fs (joinPath g.folderBase g.folder)).formatJson = none →
            ∃ c, V2.config fs g = .ok c
              ∧ c.outputFormat = j.format.getD V2.zeroOutputFormat)) := by
  constructor
  · intro opts folder
    rw [v2_applyOpts_modelConfig]
    rfl
  · intro fs g j sys htype hj hsys
    constructor
    · intro f hf
      refine ⟨{ V2.unmarshalModelConfig V2.seedConfig j with
                  system := sys, outputFormat := f }, ?_, rfl⟩
      simp only [V2.config, hj, hsys, hf, htype]
      simp
    · intro hf
      refine ⟨{ V2.unmarshalModelConfig V2.seedConfig j with system := sys }, ?_, rfl⟩
      simp only [V2.config, hj, hsys, hf, htype]
      simp

/-- The Generate state the V2 loader is invoked with in the fixture. -/
def g7 : V2.Generate :=
  { folder := "s7", prompt := "P", modelConfig := V2.zeroModelConfig
    apiBase := "u", folderBase := "base", timeout := 300000000000 }

/-- Witness for C7: option folding leaves the model config zero, a present
format.json schema is adopted, an absent one leaves config.json's schema. -/
theorem c7_witness :
    (opts7.foldl (fun g o => V2.applyOpt o g) (V2.defaultGenerate "s7")).modelConfig
        = V2.zeroModelConfig
    ∧ (∃ c, V2.config fs7 g7 = .ok c ∧ c.outputFormat = fmtFile)
    ∧ (∃ c, V2.config fs7b g7 = .ok c
        ∧ c.outputFormat = j7.format.getD V2.zeroOutputFormat) := by
  refine ⟨c7_format_json_always_wins.1 opts7 "s7", ?_, ?_⟩
  · exact (c7_format_json_always_wins.2 fs7 g7 j7 "SYS" rfl rfl rfl).1 fmtFile rfl
  · exact (c7_format_json_always_wins.2 fs7b g7 j7 "SYS" rfl rfl rfl).2 rfl

theorem findSub_none {pat s : List Char} (h : findSub pat s = none) :
    ∀ k, headMatches pat (s.drop k) = false := by
  induction s with
  | nil =>
      intro k
      simp only [findSub] at h
      split at h
      · exact absurd h (by simp)
      · rename_i hm
        simpa using Bool.not_eq_true _ ▸ hm
  | cons c rest ih =>
      intro k
      simp only [findSub] at h
      split at h
      · exact absurd h (by simp)
      · rename_i hm
        cases k with
        | zero =>
            simpa using Bool.not_eq_true _ ▸ hm
        | succ k0 =>
            simp only [Option.map_eq_none'] at h
            exact ih h k0

theorem findSub_some_prefix {pat s : List Char} {i : Nat} (h : findSub pat s = some i) :
    headMatches pat (s.drop i) = true := by
  induction s generalizing i with
  | nil =>
      simp only [findSub] at h
      split at h
      · rename_i hm
        simp only [Option.some.injEq] at h
        subst h
        exact hm
      · exact absurd h (by simp)
  | cons c rest ih =>
      simp only [findSub] at h
      split at h
      · rename_i hm
        simp only [Option.some.injEq] at h
        subst h
        exact hm
      · simp only [Option.map_eq_some'] at h
        obtain ⟨i0, h0, rfl⟩ := h
        exact ih h0

theorem findSub_some_min {pat s : List Char} {i : Nat} (h : findSub pat s = some i) :
    ∀ k, k < i → headMatches pat (s.drop k) = false := by
  induction s generalizing i with
  | nil =>
      intro k hk
      simp only [findSub] at h
      split at h
      · simp only [Option.some.injEq] at h
        omega
      · exact absurd h (by simp)
  | cons c rest ih =>
      intro k hk
      simp only [findSub] at h
      split at h
      · simp only [Option.some.injEq] at h
        omega
      · rename_i hm
        simp only [Option.map_eq_some'] at h
        obtain ⟨i0, h0, rfl⟩ := h
        cases k with
        | zero =>
            simpa using Bool.not_eq_true _ ▸ hm
        | succ k0 =>
            exact ih h0 k0 (by omega)

theorem findSub_eq_some {pat s : List Char} {i : Nat}
    (hhit : headMatches pat (s.drop i) = true)
    (hmin : ∀ k, k < i → headMatches pat (s.drop k) = false) :
    findSub pat s = some i := by
  induction s generalizing i with
  | nil =>
      have hi : i = 0 := by
        by_contra hne
        have := hmin 0 (by omega)
        simp only [List.drop_nil] at hhit this
        rw [hhit] at this
        cases this
      subst hi
      simp only [List.drop_nil] at hhit
      simp only [findSub, hhit]
      rfl
  | cons c rest ih =>
      cases i with
      | zero =>
          simp only [List.drop_zero] at hhit
          simp only [findSub, hhit]
          rfl
      | succ i0 =>
          have h0 := hmin 0 (by omega)
          simp only [List.drop_zero] at h0
          simp only [findSub, h0]
          have : findSub pat rest = some i0 :=
            ih (by simpa using hhit) (fun k hk => by simpa using hmin (k + 1) (by omega))
          rw [this]
          rfl

theorem headMatches_getElem? {pat w : List Char} (h : headMatches pat w = true)
    {d : Nat} (hd : d < pat.length) : w[d]? = pat[d]? := by
  rw [headMatches_iff] at h
  conv_rhs => rw [← h]
  rw [List.getElem?_take_of_lt hd]

/-- Neither marker can begin strictly inside text u and finish inside an
immediately following literal copy of itself: the marker's first character
appears only at its start, so any occurrence that starts before the boundary
lies wholly inside u. -/
theorem no_straddle {pat : List Char} (hpos : 0 < pat.length)
    (hself : ∀ d, d < pat.length → 0 < d → pat[d]? ≠ pat[0]?)
    (u v : List Char) {k : Nat} (hk : k < u.length)
    (hm : headMatches pat ((u ++ (pat ++ v)).drop k) = true) :
    headMatches pat (u.drop k) = true := by
  have hdrop : (u ++ (pat ++ v)).drop k = u.drop k ++ (pat ++ v) :=
    List.drop_append_of_le_length (le_of_lt hk)
  rw [hdrop] at hm
  by_cases hcase : pat.length ≤ u.length - k
  · rw [headMatches_iff] at hm ⊢
    rw [List.take_append_of_le_length (by rw [List.length_drop]; exact hcase)] at hm
    exact hm
  · exfalso
    push_neg at hcase
    have hdpos : 0 < u.length - k := by omega
    have h1 : (u.drop k ++ (pat ++ v))[u.length - k]? = pat[u.length - k]? :=
      headMatches_getElem? hm (by omega)
    have h2 : (u.drop k ++ (pat ++ v))[u.length - k]?
        = (pat ++ v)[u.length - k - (u.drop k).length]? :=
      List.getElem?_append_right (by rw [List.length_drop])
    have h3 : u.length - k - (u.drop k).length = 0 := by
      rw [List.length_drop]
      omega
    have h4 : (pat ++ v)[(0 : Nat)]? = pat[(0 : Nat)]? := List.getElem?_append_left hpos
    rw [h3, h4] at h2
    exact hself (u.length - k) (by omega) hdpos (h1 ▸ h2 ▸ rfl)

/-- The first occurrence of a self-overlap-free marker in u ++ marker ++ v,
when u holds none, is exactly at the boundary. -/
theorem findSub_at_boundary {pat : List Char} (hpos : 0 < pat.length)
    (hself : ∀ d, d < pat.length → 0 < d → pat[d]? ≠ pat[0]?)
    (u v : List Char) (hu : findSub pat u = none) :
    findSub pat (u ++ (pat ++ v)) = some u.length := by
  apply findSub_eq_some
  · rw [List.drop_left, headMatches_iff, List.take_left]
  · intro k hk
    by_contra hcon
    simp only [Bool.not_eq_false] at hcon
    have hin := no_straddle hpos hself u v hk hcon
    have hnone := findSub_none hu k
    rw [hin] at hnone
    cases hnone

/-- The open marker's first character appears only at its start. -/
theorem openTag_free : ∀ d, d < openTag.length → 0 < d → openTag[d]? ≠ openTag[0]? := by
  decide

/-- The close marker's first character appears only at its start. -/
theorem closeTag_free : ∀ d, d < closeTag.length → 0 < d → closeTag[d]? ≠ closeTag[0]? := by
  decide

/-- Text with no open marker is returned unchanged. -/
theorem strip_no_open {s : List Char} (h : findSub openTag s = none) :
    stripThinkAux s = s := by
  have hm : findMatch s = none := by
    simp only [findMatch, h]
  rw [stripThinkAux_eq, hm]

/-- One delimiter block directly after clean text is removed whole — markers
included — and stripping continues after it. -/
theorem strip_peel (p b t : List Char) (hp : findSub openTag p = none)
    (hb : findSub closeTag b = none) :
    stripThinkAux (p ++ (openTag ++ (b ++ (closeTag ++ t))))
      = p ++ stripThinkAux t := by
  have h1 : findSub openTag (p ++ (openTag ++ (b ++ (closeTag ++ t)))) = some p.length :=
    findSub_at_boundary (by decide) openTag_free p (b ++ (closeTag ++ t)) hp
  have hdrop1 : (p ++ (openTag ++ (b ++ (closeTag ++ t)))).drop (p.length + openTag.length)
      = b ++ (closeTag ++ t) := by
    rw [← List.append_assoc]
    have hlen : (p ++ openTag).length = p.length + openTag.length := List.length_append p openTag
    rw [← hlen, List.drop_left]
  have h2 : findSub closeTag (b ++ (closeTag ++ t)) = some b.length :=
    findSub_at_boundary (by decide) closeTag_free b t hb
  have hfm : findMatch (p ++ (openTag ++ (b ++ (closeTag ++ t)))) = some (p.length, b.length) := by
    simp only [findMatch, h1, hdrop1, h2]
  rw [stripThinkAux_eq, hfm]
  have htake : (p ++ (openTag ++ (b ++ (closeTag ++ t)))).take p.length = p := List.take_left ..
  have hafter : afterMatch (p ++ (openTag ++ (b ++ (closeTag ++ t)))) p.length b.length = t := by
    rw [afterMatch, hdrop1, ← List.append_assoc]
    have hlen : (b ++ closeTag).length = b.length + closeTag.length := List.length_append b closeTag
    rw [← hlen, List.drop_left]
  show (p ++ (openTag ++ (b ++ (closeTag ++ t)))).take p.length
      ++ stripThinkAux (afterMatch (p ++ (openTag ++ (b ++ (closeTag ++ t)))) p.length b.length)
    = p ++ stripThinkAux t
  rw [htake, hafter]

/-- A text made of plain segments interleaved with delimiter blocks, in the
shape the C8 claim describes. -/
def renderBlocks : List (List Char × List Char) → List Char → List Char
  | [], t => t
  | (p, b) :: rest, t => p ++ (openTag ++ (b ++ (closeTag ++ renderBlocks rest t)))

/-- One stripping pass removes every block of such a text, markers included,
leaving the plain segments concatenated. -/
theorem strip_render (L : List (List Char × List Char)) (t : List Char)
    (hL : ∀ pb ∈ L, findSub openTag pb.1 = none ∧ findSub closeTag pb.2 = none)
    (ht : findSub openTag t = none) :
    stripThinkAux (renderBlocks L t)
      = (L.map Prod.fst).foldr (fun p acc => p ++ acc) t := by
  induction L with
  | nil => exact strip_no_open ht
  | cons pb rest ih =>
      obtain ⟨p, b⟩ := pb
      obtain ⟨hp, hb⟩ := hL (p, b) (by simp)
      show stripThinkAux (p ++ (openTag ++ (b ++ (closeTag ++ renderBlocks rest t)))) = _
      rw [strip_peel p b (renderBlocks rest t) hp hb,
          ih (fun x hx => hL x (by simp [hx]))]
      rfl

/-- A string on which stripping is not idempotent: removing the inner block
splices the surrounding text into a brand-new delimiter block. -/
def c8cex : List Char := ("<th<think>x</think>ink>y</think>").data

/-- C8 counterexample: one pass over c8cex leaves the freshly spliced block
intact (the regex scans only the original text), so a second pass removes
more — strip(strip(s)) differs from strip(s), refuting idempotence for every
string. Concretely, strip(c8cex) is another open marker, body and close
marker, and stripping again yields the empty string. -/
theorem c8_counterexample :
    stripThinkAux (stripThinkAux c8cex) ≠ stripThinkAux c8cex
    ∧ stripThinkAux c8cex = ("<think>y</think>").data
    ∧ stripThinkAux (stripThinkAux c8cex) = [] := by
  refine ⟨by decide, by decide, by decide⟩

/-- C8 amended: stripping is idempotent on every string whose stripped form
contains no remaining open marker (in particular the removal of no block can
have spliced a new one together) — in general strip(strip(s)) can differ
from strip(s) — and a single application of stripping does remove every
delimiter block of a text made of marker-free plain segments and blocks,
markers included, leaving the plain segments concatenated. -/
theorem c8_strip_amended :
    (∀ s : List Char, findSub openTag (stripThinkAux s) = none →
        stripThinkAux (stripThinkAux s) = stripThinkAux s)
    ∧ (∀ (L : List (List Char × List Char)) (t : List Char),
        (∀ pb ∈ L, findSub openTag pb.1 = none ∧ findSub closeTag pb.2 = none) →
        findSub openTag t = none →
        stripThinkAux (renderBlocks L t)
          = (L.map Prod.fst).foldr (fun p acc => p ++ acc) t) :=
  ⟨fun _ h => strip_no_open h, strip_render⟩

/-- A string whose stripped form has no leftover open marker. -/
def c8idem : List Char := ("x<think>reason</think>y").data

/-- Two non-overlapping delimiter blocks between plain segments. -/
def c8blocks : List (List Char × List Char) :=
  [(("a").data, ("r1").data), (("b").data, ("r2").data)]

/-- The trailing plain segment. -/
def c8tail : List Char := ("c").data

/-- Witness for C8: the conditional idempotence holds on c8idem, and one
pass over a two-block text removes both blocks with their markers. -/
theorem c8_witness :
    stripThinkAux (stripThinkAux c8idem) = stripThinkAux c8idem
    ∧ stripThinkAux (renderBlocks c8blocks c8tail)
        = (c8blocks.map Prod.fst).foldr (fun p acc => p ++ acc) c8tail :=
  ⟨c8_strip_amended.1 c8idem (by decide),
   c8_strip_amended.2 c8blocks c8tail (by decide) (by decide)⟩

end Goll
